import Mathlib

/-!
Node description renderer (`describe/node.go`).

A shallow embedding of the node / node-resource / node-status renderers of
`describe/node.go`, followed by theorems about them.

Conventions of the embedding:

* `float64` is its IEEE-754 binary64 bit pattern, split into sign, biased
  exponent and fraction (`Float64`); `math.IsNaN`, the `%.2f` verb and the
  multiplication by the constant `100` are defined on that bit pattern.
* `int64` values are `Int`s in `[-2^63, 2^63)`; `+=` on `int64` wraps
  (`wrapInt64`).
* A Go map is the list of its entries in the order in which `range` visits
  them; that order is arbitrary, so facts about maps are stated for every
  permutation of the list.
* A closed channel of nodes is the finite list of the values received from it.
* The table writer (`go-pretty`) and the logger (`logrus`) are external: the
  embedding records, in order, the calls made on them. `Table` is the content
  the writer holds after such calls, following the library's documentation.
* `isJSON()`, `isYAML()` and `toTableRows` live outside this file of the
  package; they are parameters of the functions that use them.
  `toTableRowsModel` is `toTableRows` as the specification describes it.
* Records are reached through non-nil pointers; a record is a value here.
-/

namespace Describe

/-! ## float64 -/

/-- IEEE-754 binary64 as used by Go's `float64`: sign bit, 11-bit biased
exponent, 52-bit fraction. Every inhabitant is a float64 and conversely. -/
structure Float64 where
  sign : Bool
  expo : Fin 2048
  frac : Fin 4503599627370496
deriving DecidableEq, Repr

namespace Float64

/-- The constant `0` assigned to a `float64`: positive zero. -/
def zero : Float64 := ⟨false, 0, 0⟩

/-- Go's `math.IsNaN(f)`, that is `f != f`: exponent all ones and a non-zero fraction. -/
def IsNaN (f : Float64) : Bool := f.expo.val == 2047 && f.frac.val != 0

/-- Infinite values: exponent all ones and a zero fraction. -/
def IsInf (f : Float64) : Bool := f.expo.val == 2047 && f.frac.val == 0

/-- Finite values: everything that is neither NaN nor infinite. -/
def IsFinite (f : Float64) : Bool := f.expo.val != 2047

/-- Magnitude of a finite float as `m * 2 ^ e`: the pair `(m, e)`. -/
def decode (f : Float64) : Nat × Int :=
  if f.expo.val = 0 then (f.frac.val, -1074)
  else (f.frac.val + 4503599627370496, (f.expo.val : Int) - 1075)

/-- Exact value of a finite float as a rational number (`0` on NaN and infinities,
which callers exclude with `IsFinite`). -/
def toRat (f : Float64) : ℚ :=
  if f.expo.val = 2047 then 0
  else (if f.sign then -1 else 1) * ((decode f).1 : ℚ) * (2 : ℚ) ^ (decode f).2

/-- Quotient `m / 2 ^ k` rounded to the nearest integer, ties to the even one. -/
def roundShift (m k : Nat) : Nat :=
  let q := m / 2 ^ k
  let r := m % 2 ^ k
  if 2 ^ k < 2 * r ∨ (2 * r = 2 ^ k ∧ q % 2 = 1) then q + 1 else q

/-- The integer nearest to `m * 2 ^ e`, ties to even. -/
def roundScaled (m : Nat) : Int → Nat
  | Int.ofNat k => m * 2 ^ k
  | Int.negSucc k => roundShift m (k + 1)

/-- Position of the highest set bit, `fuel` bounding the number of halvings. -/
def log2Fuel : Nat → Nat → Nat
  | 0, _ => 0
  | fuel + 1, n => if n < 2 then 0 else log2Fuel fuel (n / 2) + 1

/-- The float nearest to `m * 2 ^ e` with the given sign (round to nearest,
ties to even; overflow gives an infinity, underflow a subnormal or zero). -/
def round (sign : Bool) (m : Nat) (e : Int) : Float64 :=
  if m = 0 then ⟨sign, 0, 0⟩
  else
    let q : Int := max ((log2Fuel m m : Int) + e) (-1022) - 52
    let M := roundScaled m (e - q)
    if M < 4503599627370496 then ⟨sign, 0, Fin.ofNat M⟩
    else
      let M1 := if M = 9007199254740992 then 4503599627370496 else M
      let q1 := if M = 9007199254740992 then q + 1 else q
      if 2047 ≤ q1 + 1075 then ⟨sign, 2047, 0⟩
      else ⟨sign, Fin.ofNat (q1 + 1075).toNat, Fin.ofNat (M1 - 4503599627370496)⟩

/-- The product `f * 100` of Go, an IEEE-754 multiplication by the constant
`100 = 25 * 2 ^ 2`. A NaN operand gives a NaN (its payload with the quiet bit
set), an infinity stays the same infinity. -/
def mul100 (f : Float64) : Float64 :=
  if f.expo.val = 2047 then
    if f.frac.val = 0 then f
    else ⟨f.sign, 2047, Fin.ofNat (f.frac.val ||| 2251799813685248)⟩
  else round f.sign ((decode f).1 * 25) ((decode f).2 + 2)

end Float64

/-! ## fmt verbs -/

/-- Verb `%v` on a `bool`. -/
def fmtBool (b : Bool) : String := if b then "true" else "false"

/-- Verb `%d` on a signed integer. -/
def fmtInt : Int → String
  | Int.ofNat n => Nat.repr n
  | Int.negSucc n => "-" ++ Nat.repr (n + 1)

/-- Two decimal digits of a number below one hundred. -/
def twoDigits (n : Nat) : String :=
  String.mk [Nat.digitChar (n / 10), Nat.digitChar (n % 10)]

/-- Verb `%.2f` on a `float64`: `NaN`, `+Inf`, `-Inf`, or the exact binary
value rounded to two decimals (to nearest, ties to even) with a leading `-`
when the sign bit is set. -/
def fmtFloat2 (f : Float64) : String :=
  if f.expo.val = 2047 then
    if f.frac.val ≠ 0 then "NaN" else if f.sign then "-Inf" else "+Inf"
  else
    let n := Float64.roundScaled ((Float64.decode f).1 * 100) (Float64.decode f).2
    (if f.sign then "-" else "") ++ Nat.repr (n / 100) ++ "." ++ twoDigits (n % 100)

/-! ## Records of `corepb` read by the renderers -/

/-- Fields of `corepb.Node` read by `describeNodes`. `InitCpu` and `InitVolume`
are maps, held as their entries in iteration order. -/
structure Node where
  Name : String
  Endpoint : String
  Bypass : Bool
  Available : Bool
  CpuUsed : Float64
  InitCpu : List (String × Int)
  MemoryUsed : Int
  InitMemory : Int
  StorageUsed : Int
  InitStorage : Int
  VolumeUsed : Int
  InitVolume : List (String × Int)
  Info : String
deriving DecidableEq, Repr

/-- Record `corepb.NodeResource`. -/
structure NodeResource where
  Name : String
  CpuPercent : Float64
  MemoryPercent : Float64
  StoragePercent : Float64
  VolumePercent : Float64
  Diffs : List String
deriving DecidableEq, Repr

/-- Record `corepb.NodeStatusStreamMessage`. -/
structure NodeStatusStreamMessage where
  Nodename : String
  Podname : String
  Alive : Bool
  Error : String
deriving DecidableEq, Repr

/-! ## External collaborators, as the calls made on them -/

/-- One call on the `go-pretty` table writer `t`. -/
inductive TableCall where
  | SetOutputMirror
  | AppendHeader (row : List String)
  | AppendRows (rows : List (List String))
  | AppendSeparator
  | SetStyleLight
  | Render
deriving DecidableEq, Repr

/-- Severity of a `logrus` line: `Errorf` or `Infof`. -/
inductive LogLevel where
  | error
  | info
deriving DecidableEq, Repr

/-- One line handed to `logrus`. -/
structure LogLine where
  level : LogLevel
  text : String
deriving DecidableEq, Repr

/-- What a dispatching entry point does: serialise records as JSON, as YAML,
or drive the table writer. -/
inductive Output (α : Type) where
  | describeAsJSON (records : α)
  | describeAsYAML (records : α)
  | table (calls : List TableCall)
deriving DecidableEq, Repr

/-! ## `describeNodes` -/

/-- Reduction of an integer to the `int64` range `[-2^63, 2^63)`, as the
`int64` addition of Go does on overflow. -/
def wrapInt64 (z : Int) : Int :=
  (z + 9223372036854775808) % 18446744073709551616 - 9223372036854775808

/-- Lines 50-54: the status text of a node. -/
def nodeStatus (node : Node) : String :=
  let status := "DOWN"
  let status := if !node.Bypass && node.Available then "UP" else status
  status ++ ("\nbypass " ++ fmtBool node.Bypass ++ "\navailable " ++ fmtBool node.Available)

/-- Lines 56-59: `totalVolumeCap`, accumulated over the entries of `InitVolume`
in iteration order with wrapping `int64` addition. -/
def totalVolumeCap (initVolume : List (String × Int)) : Int :=
  initVolume.foldl (fun total kv => wrapInt64 (total + kv.2)) 0

/-- Lines 60-65: the four lines of the resources cell, before `strings.Join`. -/
def nodeResourceLines (node : Node) : List String :=
  [ "CPU: " ++ fmtFloat2 node.CpuUsed ++ "/" ++ fmtInt (node.InitCpu.length : Int),
    "Mem: " ++ fmtInt node.MemoryUsed ++ "/" ++ fmtInt node.InitMemory ++ " bytes",
    "Vol: " ++ fmtInt node.VolumeUsed ++ " / " ++ fmtInt (totalVolumeCap node.InitVolume)
      ++ " bytes",
    "Storage: " ++ fmtInt node.StorageUsed ++ " / " ++ fmtInt node.InitStorage ++ " bytes" ]

/-- Lines 60-65: the resources cell of a node. -/
def nodeResources (node : Node) : String :=
  "\n".intercalate (nodeResourceLines node)

/-- Lines 67-75: the display fields of a node, the argument of `toTableRows`. -/
def nodeRows (node : Node) (showInfo : Bool) : List (List String) :=
  let rows := [[node.Name], [node.Endpoint], [nodeStatus node], [nodeResources node]]
  if showInfo then rows ++ [[node.Info]] else rows

/-- Lines 43-47: the header appended by `describeNodes`. -/
def nodeHeader (showInfo : Bool) : List String :=
  if showInfo then ["Name", "Endpoint", "Status", "Resources", "Info"]
  else ["Name", "Endpoint", "Status", "Resources"]

set_option linter.unusedVariables false in
/-- Function `describeNodes`: the calls made on the table writer while the
closed channel `nodes` is drained. The parameter `stream` is not read. -/
def describeNodes (toTableRows : List (List String) → List (List String))
    (nodes : List Node) (showInfo stream : Bool) : List TableCall :=
  let t := [TableCall.SetOutputMirror]
  let t := t ++ [TableCall.AppendHeader (nodeHeader showInfo)]
  let t := nodes.foldl
    (fun t node =>
      t ++ [TableCall.AppendRows (toTableRows (nodeRows node showInfo))]
        ++ [TableCall.AppendSeparator]) t
  t ++ [TableCall.SetStyleLight] ++ [TableCall.Render]

/-- Function `Nodes`. -/
def Nodes (isJSON isYAML : Bool) (toTableRows : List (List String) → List (List String))
    (nodes : List Node) (stream : Bool) : Output (List Node) :=
  if isJSON then Output.describeAsJSON nodes
  else if isYAML then Output.describeAsYAML nodes
  else Output.table (describeNodes toTableRows nodes false stream)

/-- Function `NodesWithInfo`. -/
def NodesWithInfo (isJSON isYAML : Bool)
    (toTableRows : List (List String) → List (List String))
    (nodes : List Node) (stream : Bool) : Output (List Node) :=
  if isJSON then Output.describeAsJSON nodes
  else if isYAML then Output.describeAsYAML nodes
  else Output.table (describeNodes toTableRows nodes true stream)

/-! ## `NodeResources` -/

/-- Function `checkNaNForResource`: the record after the four in-place updates. -/
def checkNaNForResource (resource : NodeResource) : NodeResource :=
  let resource :=
    if resource.VolumePercent.IsNaN then { resource with VolumePercent := Float64.zero }
    else resource
  let resource :=
    if resource.MemoryPercent.IsNaN then { resource with MemoryPercent := Float64.zero }
    else resource
  let resource :=
    if resource.StoragePercent.IsNaN then { resource with StoragePercent := Float64.zero }
    else resource
  let resource :=
    if resource.CpuPercent.IsNaN then { resource with CpuPercent := Float64.zero }
    else resource
  resource

/-- Format `%.2f%%` applied to `percent * 100`. -/
def fmtPercent (percent : Float64) : String :=
  fmtFloat2 (Float64.mul100 percent) ++ "%"

/-- The six accumulators of `describeNodeResources`. -/
structure ResourceRows where
  nodeRow : List String
  cpuRow : List String
  memoryRow : List String
  storageRow : List String
  volumeRow : List String
  diffsRow : List String
deriving DecidableEq, Repr

/-- Lines 121-134: the six accumulators after the loop over the resources. -/
def resourceRows (resources : List NodeResource) : ResourceRows :=
  resources.foldl
    (fun acc resource =>
      { nodeRow := acc.nodeRow ++ [resource.Name],
        cpuRow := acc.cpuRow ++ [fmtPercent resource.CpuPercent],
        memoryRow := acc.memoryRow ++ [fmtPercent resource.MemoryPercent],
        storageRow := acc.storageRow ++ [fmtPercent resource.StoragePercent],
        volumeRow := acc.volumeRow ++ [fmtPercent resource.VolumePercent],
        diffsRow := acc.diffsRow ++ ["\n".intercalate resource.Diffs] })
    { nodeRow := [], cpuRow := [], memoryRow := [], storageRow := [], volumeRow := [],
      diffsRow := [] }

/-- Line 135: the argument of `toTableRows` in `describeNodeResources`. -/
def ResourceRows.rows (acc : ResourceRows) : List (List String) :=
  [acc.nodeRow, acc.cpuRow, acc.memoryRow, acc.storageRow, acc.volumeRow, acc.diffsRow]

/-- Function `describeNodeResources`: the calls made on the table writer. -/
def describeNodeResources (toTableRows : List (List String) → List (List String))
    (resources : List NodeResource) : List TableCall :=
  let t := [TableCall.SetOutputMirror]
  let t := t ++ [TableCall.AppendHeader ["Name", "Cpu", "Memory", "Storage", "Volume", "Diffs"]]
  let rows := (resourceRows resources).rows
  let t := t ++ [TableCall.AppendRows (toTableRows rows)]
  let t := t ++ [TableCall.AppendSeparator]
  let t := t ++ [TableCall.SetStyleLight]
  t ++ [TableCall.Render]

/-- Function `NodeResources`: every record is passed through
`checkNaNForResource` first, then the output mode is chosen. -/
def NodeResources (isJSON isYAML : Bool)
    (toTableRows : List (List String) → List (List String))
    (resources : List NodeResource) : Output (List NodeResource) :=
  let resources := resources.map checkNaNForResource
  if isJSON then Output.describeAsJSON resources
  else if isYAML then Output.describeAsYAML resources
  else Output.table (describeNodeResources toTableRows resources)

/-! ## `NodeStatusMessage` -/

/-- Lines 158-162: the line logged for one status message. -/
def statusLine (m : NodeStatusStreamMessage) : LogLine :=
  if m.Error ≠ "" then
    ⟨LogLevel.error,
      "[WatchNodeStatus] Error when get status for node " ++ m.Nodename ++ ": " ++ m.Error⟩
  else
    ⟨LogLevel.info,
      "[WatchNodeStatus] Node " ++ m.Nodename ++ " on pod " ++ m.Podname ++ ", alive: "
        ++ fmtBool m.Alive⟩

/-- Function `describeNodeStatusMessage`: the lines logged, in order. -/
def describeNodeStatusMessage (ms : List NodeStatusStreamMessage) : List LogLine :=
  ms.foldl (fun log m => log ++ [statusLine m]) []

/-- Function `NodeStatusMessage`. -/
def NodeStatusMessage (isJSON isYAML : Bool) (ms : List NodeStatusStreamMessage) :
    Output (List NodeStatusStreamMessage) ⊕ List LogLine :=
  if isJSON then Sum.inl (Output.describeAsJSON ms)
  else if isYAML then Sum.inl (Output.describeAsYAML ms)
  else Sum.inr (describeNodeStatusMessage ms)


/-! ## The grid held by the table writer -/

/-- Modelled from the spec: `toTableRows`, the helper of package `describe`
that turns the per-field sequences built by a renderer into the rows of the
grid; its source is not part of `node.go`. Row `i` holds the `i`-th entry of
every per-field sequence, in the order of the sequences (the four one-entry
sequences of a node make one row of four cells, as in the node scenario); there
are as many rows as the longest sequence has entries, and a sequence that is
too short contributes the empty text. -/
def toTableRowsModel (columns : List (List String)) : List (List String) :=
  (List.range ((columns.map List.length).foldl max 0)).map
    (fun i => columns.map (fun column => column.getD i ""))

/-- Content held by the `go-pretty` writer after the calls made on it, as the
library documents them: the header rows, the data rows, and the indices of the
data rows that a separator follows. -/
structure Table where
  header : List (List String)
  rows : List (List String)
  separators : List Nat
deriving DecidableEq, Repr

/-- Effect of one call on the content: `AppendHeader` and `AppendRows` append;
`AppendSeparator` marks the current last data row, and does nothing when
there is no data row or when that row is marked already; the other calls add
no content. -/
def Table.call (t : Table) : TableCall → Table
  | TableCall.AppendHeader row => { t with header := t.header ++ [row] }
  | TableCall.AppendRows rows => { t with rows := t.rows ++ rows }
  | TableCall.AppendSeparator =>
    if t.rows.length = 0 ∨ t.rows.length - 1 ∈ t.separators then t
    else { t with separators := t.separators ++ [t.rows.length - 1] }
  | TableCall.SetOutputMirror => t
  | TableCall.SetStyleLight => t
  | TableCall.Render => t

/-- Content of a fresh writer after a list of calls. -/
def Table.run (calls : List TableCall) : Table :=
  calls.foldl Table.call ⟨[], [], []⟩

/-! ## Concrete inputs used below -/

/-- A quiet NaN (`0x7FF8000000000001`). -/
def nanValue : Float64 := ⟨false, 2047, 2251799813685249⟩

/-- The float `0.5`. -/
def halfValue : Float64 := ⟨false, 1022, 0⟩

/-- The float `2.0`. -/
def twoValue : Float64 := ⟨false, 1024, 0⟩

/-- A resource summary whose CPU percentage is NaN. -/
def nanResource : NodeResource :=
  ⟨"n1", nanValue, halfValue, Float64.zero, halfValue, ["memory diff"]⟩

/-- A resource summary whose CPU percentage is `2.0`. -/
def overResource : NodeResource :=
  ⟨"n2", twoValue, halfValue, Float64.zero, halfValue, []⟩

/-- The node `n1` of the scenario: `cpuUsed = 1.5`, four CPUs, memory
`1024/4096`, storage `0/1000`, no volume pool. -/
def scenarioNode : Node :=
  { Name := "n1", Endpoint := "10.0.0.1:2379", Bypass := false, Available := true,
    CpuUsed := ⟨false, 1023, 2251799813685248⟩,
    InitCpu := [("0", 100), ("1", 100), ("2", 100), ("3", 100)],
    MemoryUsed := 1024, InitMemory := 4096, StorageUsed := 0, InitStorage := 1000,
    VolumeUsed := 0, InitVolume := [], Info := "" }

/-- A node with the pools `100` and `250`, a CPU usage of `0.125` and a
negative storage usage. -/
def pooledNode : Node :=
  { Name := "n2", Endpoint := "10.0.0.2:2379", Bypass := true, Available := true,
    CpuUsed := ⟨false, 1020, 0⟩,
    InitCpu := [("0", 100), ("1", 100)],
    MemoryUsed := 512, InitMemory := 2048, StorageUsed := -7, InitStorage := 9,
    VolumeUsed := 30, InitVolume := [("pool0", 100), ("pool1", 250)], Info := "" }

/-- A node whose CPU usage is NaN and whose three pools of `2^62` bytes sum
to more than an `int64` holds. -/
def overflowNode : Node :=
  { Name := "n3", Endpoint := "10.0.0.3:2379", Bypass := false, Available := true,
    CpuUsed := nanValue, InitCpu := [],
    MemoryUsed := 0, InitMemory := 0, StorageUsed := 0, InitStorage := 0,
    VolumeUsed := 0,
    InitVolume := [("pool0", 4611686018427387904), ("pool1", 4611686018427387904),
      ("pool2", 4611686018427387904)],
    Info := "" }

/-- Positive infinity. -/
def infValue : Float64 := ⟨false, 2047, 0⟩

/-- A percentage is displayable when it is a finite number in `[0, 1]`. -/
def InUnit (f : Float64) : Prop :=
  f.IsFinite = true ∧ 0 ≤ f.toRat ∧ f.toRat ≤ 1

/-! ## Helper lemmas -/

theorem Float64.zero_not_nan : Float64.zero.IsNaN = false := by decide

theorem Float64.zero_toRat : Float64.zero.toRat = 0 := by
  simp [Float64.toRat, Float64.zero, Float64.decode]

theorem Float64.zero_inUnit : InUnit Float64.zero := by
  refine ⟨by decide, ?_, ?_⟩ <;> simp [Float64.zero_toRat]

theorem checkNaN_fields (r : NodeResource) :
    checkNaNForResource r =
      { Name := r.Name,
        CpuPercent := if r.CpuPercent.IsNaN then Float64.zero else r.CpuPercent,
        MemoryPercent := if r.MemoryPercent.IsNaN then Float64.zero else r.MemoryPercent,
        StoragePercent := if r.StoragePercent.IsNaN then Float64.zero else r.StoragePercent,
        VolumePercent := if r.VolumePercent.IsNaN then Float64.zero else r.VolumePercent,
        Diffs := r.Diffs } := by
  obtain ⟨name, cpu, mem, sto, vol, diffs⟩ := r
  by_cases hv : vol.IsNaN = true <;> by_cases hm : mem.IsNaN = true <;>
    by_cases hs : sto.IsNaN = true <;> by_cases hc : cpu.IsNaN = true <;>
    simp [checkNaNForResource, hv, hm, hs, hc]

theorem sanitized_not_nan (f : Float64) :
    (if f.IsNaN then Float64.zero else f).IsNaN = false := by
  cases h : f.IsNaN
  · simpa using h
  · simpa using Float64.zero_not_nan

theorem foldl_snoc_eq_map {α β : Type} (f : α → β) (l : List α) (init : List β) :
    l.foldl (fun acc x => acc ++ [f x]) init = init ++ l.map f := by
  induction l generalizing init with
  | nil => simp
  | cons x xs ih => simp [ih]

theorem describeNodes_calls (toTableRows : List (List String) → List (List String))
    (nodes : List Node) (showInfo stream : Bool) :
    describeNodes toTableRows nodes showInfo stream =
      [TableCall.SetOutputMirror, TableCall.AppendHeader (nodeHeader showInfo)]
        ++ nodes.flatMap (fun node =>
            [TableCall.AppendRows (toTableRows (nodeRows node showInfo)),
              TableCall.AppendSeparator])
        ++ [TableCall.SetStyleLight, TableCall.Render] := by
  have hloop : ∀ (l : List Node) (init : List TableCall),
      l.foldl (fun t node =>
          t ++ [TableCall.AppendRows (toTableRows (nodeRows node showInfo))]
            ++ [TableCall.AppendSeparator]) init
        = init ++ l.flatMap (fun node =>
            [TableCall.AppendRows (toTableRows (nodeRows node showInfo)),
              TableCall.AppendSeparator]) := by
    intro l
    induction l with
    | nil => intro init; simp
    | cons x xs ih =>
      intro init
      rw [List.foldl_cons, ih, List.flatMap_cons]
      simp only [List.append_assoc, List.singleton_append, List.cons_append, List.nil_append]
  unfold describeNodes
  simp only []
  rw [hloop]
  simp only [List.append_assoc, List.singleton_append, List.cons_append, List.nil_append]

theorem count_separator_rows (toTableRows : List (List String) → List (List String))
    (showInfo : Bool) (nodes : List Node) :
    (nodes.flatMap (fun node =>
        [TableCall.AppendRows (toTableRows (nodeRows node showInfo)),
          TableCall.AppendSeparator])).count TableCall.AppendSeparator = nodes.length := by
  induction nodes with
  | nil => rfl
  | cons x xs ih =>
    rw [List.flatMap_cons, List.count_append, ih]
    simp [List.count_cons, Nat.add_comm]

theorem resourceRows_eq_map (resources : List NodeResource) :
    resourceRows resources =
      { nodeRow := resources.map (fun r => r.Name),
        cpuRow := resources.map (fun r => fmtPercent r.CpuPercent),
        memoryRow := resources.map (fun r => fmtPercent r.MemoryPercent),
        storageRow := resources.map (fun r => fmtPercent r.StoragePercent),
        volumeRow := resources.map (fun r => fmtPercent r.VolumePercent),
        diffsRow := resources.map (fun r => "\n".intercalate r.Diffs) } := by
  have hloop : ∀ (l : List NodeResource) (acc : ResourceRows),
      l.foldl
        (fun acc resource =>
          { nodeRow := acc.nodeRow ++ [resource.Name],
            cpuRow := acc.cpuRow ++ [fmtPercent resource.CpuPercent],
            memoryRow := acc.memoryRow ++ [fmtPercent resource.MemoryPercent],
            storageRow := acc.storageRow ++ [fmtPercent resource.StoragePercent],
            volumeRow := acc.volumeRow ++ [fmtPercent resource.VolumePercent],
            diffsRow := acc.diffsRow ++ ["\n".intercalate resource.Diffs] }) acc
        = { nodeRow := acc.nodeRow ++ l.map (fun r => r.Name),
            cpuRow := acc.cpuRow ++ l.map (fun r => fmtPercent r.CpuPercent),
            memoryRow := acc.memoryRow ++ l.map (fun r => fmtPercent r.MemoryPercent),
            storageRow := acc.storageRow ++ l.map (fun r => fmtPercent r.StoragePercent),
            volumeRow := acc.volumeRow ++ l.map (fun r => fmtPercent r.VolumePercent),
            diffsRow := acc.diffsRow ++ l.map (fun r => "\n".intercalate r.Diffs) } := by
    intro l
    induction l with
    | nil => intro acc; simp
    | cons x xs ih => intro acc; simp [ih]
  simpa [resourceRows] using hloop resources _

theorem wrapInt64_add_left (x y : Int) : wrapInt64 (wrapInt64 x + y) = wrapInt64 (x + y) := by
  unfold wrapInt64
  omega

theorem wrapInt64_of_range (z : Int) (hlo : -9223372036854775808 ≤ z)
    (hhi : z < 9223372036854775808) : wrapInt64 z = z := by
  unfold wrapInt64
  omega

theorem wrapInt64_range (z : Int) :
    -9223372036854775808 ≤ wrapInt64 z ∧ wrapInt64 z < 9223372036854775808 := by
  unfold wrapInt64
  omega

theorem totalVolumeCap_eq_wrap_sum (initVolume : List (String × Int)) :
    totalVolumeCap initVolume = wrapInt64 (initVolume.map Prod.snd).sum := by
  have hloop : ∀ (l : List (String × Int)) (a : Int),
      l.foldl (fun total kv => wrapInt64 (total + kv.2)) (wrapInt64 a)
        = wrapInt64 (a + (l.map Prod.snd).sum) := by
    intro l
    induction l with
    | nil => intro a; simp
    | cons x xs ih =>
      intro a
      simp only [List.foldl_cons, List.map_cons, List.sum_cons]
      rw [wrapInt64_add_left, ih, Int.add_assoc]
  have h0 : wrapInt64 0 = 0 := by decide
  have := hloop initVolume 0
  rw [h0] at this
  simpa [totalVolumeCap] using this

theorem digitChar_ne_newline (d : Nat) (h : d < 10) : Nat.digitChar d ≠ '\n' := by
  have hall : ∀ i : Fin 10, Nat.digitChar i.val ≠ '\n' := by decide
  exact hall ⟨d, h⟩

theorem toDigitsCore_no_newline (fuel : Nat) :
    ∀ (n : Nat) (ds : List Char), '\n' ∉ ds → '\n' ∉ Nat.toDigitsCore 10 fuel n ds := by
  induction fuel with
  | zero => intro n ds h; simpa [Nat.toDigitsCore] using h
  | succ fuel ih =>
    intro n ds h
    have hcons : '\n' ∉ Nat.digitChar (n % 10) :: ds := by
      intro hmem
      rcases List.mem_cons.mp hmem with h1 | h1
      · exact digitChar_ne_newline _ (Nat.mod_lt _ (by decide)) h1.symm
      · exact h h1
    rw [Nat.toDigitsCore]
    split_ifs
    · exact hcons
    · exact ih _ _ hcons

theorem repr_count_newline (n : Nat) : (Nat.repr n).data.count '\n' = 0 := by
  apply List.count_eq_zero.mpr
  simpa [Nat.repr, Nat.toDigits, List.asString] using toDigitsCore_no_newline (n + 1) n [] (by simp)

theorem fmtInt_count_newline (z : Int) : (fmtInt z).data.count '\n' = 0 := by
  cases z with
  | ofNat n => exact repr_count_newline n
  | negSucc n =>
    have h : ("-" : String).data.count '\n' = 0 := by decide
    simp only [fmtInt, String.data_append, List.count_append, h, repr_count_newline]

theorem twoDigits_count_newline (n : Nat) :
    (twoDigits (n % 100)).data.count '\n' = 0 := by
  apply List.count_eq_zero.mpr
  intro hmem
  simp only [twoDigits, List.mem_cons, List.mem_singleton, List.not_mem_nil, or_false] at hmem
  rcases hmem with h | h
  · exact digitChar_ne_newline _ (by omega) h.symm
  · exact digitChar_ne_newline _ (by omega) h.symm

theorem fmtFloat2_count_newline (f : Float64) : (fmtFloat2 f).data.count '\n' = 0 := by
  have h1 : ("NaN" : String).data.count '\n' = 0 := by decide
  have h2 : ("-Inf" : String).data.count '\n' = 0 := by decide
  have h3 : ("+Inf" : String).data.count '\n' = 0 := by decide
  have h4 : ("-" : String).data.count '\n' = 0 := by decide
  have h5 : ("" : String).data.count '\n' = 0 := by decide
  have h6 : ("." : String).data.count '\n' = 0 := by decide
  unfold fmtFloat2
  split_ifs <;>
    simp only [String.data_append, List.count_append, h1, h2, h3, h4, h5, h6,
      repr_count_newline, twoDigits_count_newline]

theorem roundShift_near (m k : Nat) :
    |(Float64.roundShift m k : ℚ) - (m : ℚ) / (2 : ℚ) ^ k| ≤ 1 / 2 := by
  have hK : (0 : ℚ) < (2 : ℚ) ^ k := by positivity
  have hdm : 2 ^ k * (m / 2 ^ k) + m % 2 ^ k = m := Nat.div_add_mod m (2 ^ k)
  have hlt : m % 2 ^ k < 2 ^ k := Nat.mod_lt _ (by positivity)
  have hdmQ : (2 : ℚ) ^ k * ((m / 2 ^ k : ℕ) : ℚ) + ((m % 2 ^ k : ℕ) : ℚ) = (m : ℚ) := by
    exact_mod_cast hdm
  have hltQ : ((m % 2 ^ k : ℕ) : ℚ) < (2 : ℚ) ^ k := by exact_mod_cast hlt
  have hr0 : (0 : ℚ) ≤ ((m % 2 ^ k : ℕ) : ℚ) := by positivity
  have hval : (m : ℚ) / (2 : ℚ) ^ k
      = ((m / 2 ^ k : ℕ) : ℚ) + ((m % 2 ^ k : ℕ) : ℚ) / (2 : ℚ) ^ k := by
    rw [← hdmQ]
    field_simp
    ring
  unfold Float64.roundShift
  simp only []
  rw [hval, abs_le]
  split_ifs with hup
  · have hge : (2 : ℚ) ^ k ≤ 2 * ((m % 2 ^ k : ℕ) : ℚ) := by
      rcases hup with h | ⟨h, -⟩
      · have : 2 ^ k ≤ 2 * (m % 2 ^ k) := Nat.le_of_lt h
        exact_mod_cast this
      · have : 2 ^ k ≤ 2 * (m % 2 ^ k) := Nat.le_of_eq h.symm
        exact_mod_cast this
    have hfrac : (1 : ℚ) / 2 ≤ ((m % 2 ^ k : ℕ) : ℚ) / (2 : ℚ) ^ k := by
      rw [le_div_iff₀ hK]; linarith
    have hfrac1 : ((m % 2 ^ k : ℕ) : ℚ) / (2 : ℚ) ^ k ≤ 1 := by
      rw [div_le_iff₀ hK]; linarith
    push_cast
    constructor <;> linarith
  · have hle : 2 * ((m % 2 ^ k : ℕ) : ℚ) ≤ (2 : ℚ) ^ k := by
      have h1 : ¬ 2 ^ k < 2 * (m % 2 ^ k) := fun h => hup (Or.inl h)
      have : 2 * (m % 2 ^ k) ≤ 2 ^ k := Nat.le_of_not_lt h1
      exact_mod_cast this
    have hfrac : ((m % 2 ^ k : ℕ) : ℚ) / (2 : ℚ) ^ k ≤ 1 / 2 := by
      rw [div_le_iff₀ hK]; linarith
    have hfrac0 : (0 : ℚ) ≤ ((m % 2 ^ k : ℕ) : ℚ) / (2 : ℚ) ^ k := by positivity
    constructor <;> linarith

theorem roundScaled_near (m : Nat) (e : Int) :
    |(Float64.roundScaled m e : ℚ) - (m : ℚ) * (2 : ℚ) ^ e| ≤ 1 / 2 := by
  cases e with
  | ofNat k =>
    have : (Float64.roundScaled m (Int.ofNat k) : ℚ) = (m : ℚ) * (2 : ℚ) ^ (Int.ofNat k) := by
      simp [Float64.roundScaled]
    rw [this]
    simp
  | negSucc k =>
    have h := roundShift_near m (k + 1)
    have hpow : (2 : ℚ) ^ (Int.negSucc k) = ((2 : ℚ) ^ (k + 1))⁻¹ := zpow_negSucc 2 k
    rw [hpow]
    simpa [Float64.roundScaled, div_eq_mul_inv] using h

theorem abs_toRat_finite (f : Float64) (h : f.IsFinite = true) :
    |f.toRat| = ((Float64.decode f).1 : ℚ) * (2 : ℚ) ^ (Float64.decode f).2 := by
  have hne : ¬ f.expo.val = 2047 := by
    simpa [Float64.IsFinite] using h
  have hnonneg : (0 : ℚ) ≤ ((Float64.decode f).1 : ℚ) * (2 : ℚ) ^ (Float64.decode f).2 := by
    positivity
  unfold Float64.toRat
  rw [if_neg hne]
  cases f.sign
  · simp only [Bool.false_eq_true, if_false, one_mul]
    exact abs_of_nonneg hnonneg
  · simp only [if_true, neg_mul, one_mul, abs_neg]
    exact abs_of_nonneg hnonneg

/-! ## C1 -/

/-- C1: `checkNaNForResource` is a total function; each of the four percentage
fields of its result is positive zero when that field of the input is NaN and
is the input value otherwise, and `Name` and `Diffs` are the input's. -/
theorem checkNaNForResource_spec (r : NodeResource) :
    (checkNaNForResource r).CpuPercent
        = (if r.CpuPercent.IsNaN then Float64.zero else r.CpuPercent) ∧
    (checkNaNForResource r).MemoryPercent
        = (if r.MemoryPercent.IsNaN then Float64.zero else r.MemoryPercent) ∧
    (checkNaNForResource r).StoragePercent
        = (if r.StoragePercent.IsNaN then Float64.zero else r.StoragePercent) ∧
    (checkNaNForResource r).VolumePercent
        = (if r.VolumePercent.IsNaN then Float64.zero else r.VolumePercent) ∧
    (checkNaNForResource r).Name = r.Name ∧
    (checkNaNForResource r).Diffs = r.Diffs ∧
    Float64.zero = ⟨false, 0, 0⟩ ∧ Float64.zero.toRat = 0 := by
  rw [checkNaN_fields]
  exact ⟨rfl, rfl, rfl, rfl, rfl, rfl, rfl, Float64.zero_toRat⟩

/-! ## C2 -/

/-- C2, as stated, fails: in JSON mode the record whose CPU percentage is NaN
does not reach `describeAsJSON` as it was; its CPU percentage there is zero. -/
theorem NodeResources_json_sanitizes_nan :
    nanResource.CpuPercent.IsNaN = true ∧
    NodeResources true false id [nanResource] ≠ Output.describeAsJSON [nanResource] ∧
    NodeResources true false id [nanResource]
      = Output.describeAsJSON [{ nanResource with CpuPercent := Float64.zero }] := by
  decide

/-- C2, amended: in JSON mode and in YAML mode, as in tabular mode,
`NodeResources` hands on the records after `checkNaNForResource`; none of
their percentage fields is NaN. -/
theorem NodeResources_structured_spec
    (toTableRows : List (List String) → List (List String)) (isYAML : Bool)
    (resources : List NodeResource) :
    NodeResources true isYAML toTableRows resources
      = Output.describeAsJSON (resources.map checkNaNForResource) ∧
    NodeResources false true toTableRows resources
      = Output.describeAsYAML (resources.map checkNaNForResource) ∧
    NodeResources false false toTableRows resources
      = Output.table (describeNodeResources toTableRows (resources.map checkNaNForResource)) ∧
    ∀ r ∈ resources.map checkNaNForResource,
      r.CpuPercent.IsNaN = false ∧ r.MemoryPercent.IsNaN = false ∧
      r.StoragePercent.IsNaN = false ∧ r.VolumePercent.IsNaN = false := by
  refine ⟨rfl, rfl, rfl, ?_⟩
  intro r hr
  obtain ⟨r0, -, rfl⟩ := List.mem_map.mp hr
  rw [checkNaN_fields]
  exact ⟨sanitized_not_nan _, sanitized_not_nan _, sanitized_not_nan _, sanitized_not_nan _⟩

/-! ## C3 -/

/-- C3: the status text is `UP` plus the two lines reporting `Bypass` and
`Available` when `Bypass` is false and `Available` is true, and `DOWN` plus the
same two lines in the three other cases. -/
theorem nodeStatus_spec (node : Node) :
    nodeStatus node =
      (if node.Bypass = false ∧ node.Available = true then "UP" else "DOWN")
        ++ "\nbypass " ++ fmtBool node.Bypass ++ "\navailable " ++ fmtBool node.Available ∧
    nodeStatus node =
      (match node.Bypass, node.Available with
        | false, true => "UP\nbypass false\navailable true"
        | false, false => "DOWN\nbypass false\navailable false"
        | true, false => "DOWN\nbypass true\navailable false"
        | true, true => "DOWN\nbypass true\navailable true") := by
  obtain ⟨name, endpoint, bypass, available, cpuUsed, initCpu, memUsed, initMem, stoUsed,
    initSto, volUsed, initVol, info⟩ := node
  cases bypass <;> cases available <;> exact ⟨rfl, rfl⟩

/-! ## C9 -/

/-- C9: `describeNodeStatusMessage` logs one line per message, in input order;
the line of a message is an error line naming `Nodename` and `Error` exactly
when `Error` is non-empty, and otherwise an info line naming `Nodename`,
`Podname` and `Alive`; the messages after one with an error are still logged. -/
theorem describeNodeStatusMessage_spec (ms after : List NodeStatusStreamMessage)
    (m : NodeStatusStreamMessage) :
    describeNodeStatusMessage ms = ms.map statusLine ∧
    (describeNodeStatusMessage ms).length = ms.length ∧
    ((statusLine m).level = LogLevel.error ↔ m.Error ≠ "") ∧
    ((statusLine m).level = LogLevel.info ↔ m.Error = "") ∧
    statusLine m =
      (if m.Error ≠ "" then
        ⟨LogLevel.error,
          "[WatchNodeStatus] Error when get status for node " ++ m.Nodename ++ ": " ++ m.Error⟩
      else
        ⟨LogLevel.info,
          "[WatchNodeStatus] Node " ++ m.Nodename ++ " on pod " ++ m.Podname ++ ", alive: "
            ++ (if m.Alive then "true" else "false")⟩) ∧
    describeNodeStatusMessage (ms ++ m :: after)
      = describeNodeStatusMessage ms ++ statusLine m :: describeNodeStatusMessage after := by
  have hmap : ∀ l : List NodeStatusStreamMessage,
      describeNodeStatusMessage l = l.map statusLine := by
    intro l
    simpa [describeNodeStatusMessage] using foldl_snoc_eq_map statusLine l []
  refine ⟨hmap ms, by simp [hmap], ?_, ?_, rfl, by simp [hmap]⟩
  · by_cases h : m.Error = "" <;> simp [statusLine, h]
  · by_cases h : m.Error = "" <;> simp [statusLine, h]

/-! ## C10 -/

/-- C10, as stated, fails: a CPU percentage of `2.0` is not NaN, so the
sanitizer leaves it as it is, and `2.0` is not in `[0, 1]`. -/
theorem checkNaNForResource_keeps_out_of_range :
    (checkNaNForResource overResource).CpuPercent = twoValue ∧
    twoValue.toRat = 2 ∧ ¬ InUnit (checkNaNForResource overResource).CpuPercent := by
  have h2 : twoValue.toRat = 2 := by
    have hd : Float64.decode twoValue = (4503599627370496, -51) := by decide
    have he : twoValue.expo.val = 1024 := rfl
    have hs : twoValue.sign = false := rfl
    unfold Float64.toRat
    rw [hd, he, hs]
    norm_num
  have hc : (checkNaNForResource overResource).CpuPercent = twoValue := by decide
  refine ⟨hc, h2, ?_⟩
  rw [hc]
  intro h
  have := h.2.2
  rw [h2] at this
  norm_num at this

/-- C10, amended: after `checkNaNForResource` each percentage field is zero
when it was NaN and is the input value otherwise; hence none is NaN, and a field
is a finite number in `[0, 1]` exactly when it was NaN or already one on input:
infinities and values outside `[0, 1]` are kept as they are. `Name` and `Diffs`
are kept. These are the values the tabular path formats. -/
theorem checkNaNForResource_range
    (toTableRows : List (List String) → List (List String))
    (resources : List NodeResource) (r : NodeResource) :
    ((checkNaNForResource r).CpuPercent
        = (if r.CpuPercent.IsNaN then Float64.zero else r.CpuPercent) ∧
      (checkNaNForResource r).CpuPercent.IsNaN = false ∧
      (InUnit (checkNaNForResource r).CpuPercent
        ↔ (r.CpuPercent.IsNaN = true ∨ InUnit r.CpuPercent))) ∧
    ((checkNaNForResource r).MemoryPercent
        = (if r.MemoryPercent.IsNaN then Float64.zero else r.MemoryPercent) ∧
      (checkNaNForResource r).MemoryPercent.IsNaN = false ∧
      (InUnit (checkNaNForResource r).MemoryPercent
        ↔ (r.MemoryPercent.IsNaN = true ∨ InUnit r.MemoryPercent))) ∧
    ((checkNaNForResource r).StoragePercent
        = (if r.StoragePercent.IsNaN then Float64.zero else r.StoragePercent) ∧
      (checkNaNForResource r).StoragePercent.IsNaN = false ∧
      (InUnit (checkNaNForResource r).StoragePercent
        ↔ (r.StoragePercent.IsNaN = true ∨ InUnit r.StoragePercent))) ∧
    ((checkNaNForResource r).VolumePercent
        = (if r.VolumePercent.IsNaN then Float64.zero else r.VolumePercent) ∧
      (checkNaNForResource r).VolumePercent.IsNaN = false ∧
      (InUnit (checkNaNForResource r).VolumePercent
        ↔ (r.VolumePercent.IsNaN = true ∨ InUnit r.VolumePercent))) ∧
    (checkNaNForResource r).Name = r.Name ∧
    (checkNaNForResource r).Diffs = r.Diffs ∧
    (Float64.zero = ⟨false, 0, 0⟩ ∧ Float64.zero.toRat = 0 ∧ InUnit Float64.zero) ∧
    (infValue.IsNaN = false ∧ infValue.IsInf = true ∧ ¬ InUnit infValue ∧
      (checkNaNForResource { r with CpuPercent := infValue }).CpuPercent = infValue) ∧
    NodeResources false false toTableRows resources
      = Output.table
          (describeNodeResources toTableRows (resources.map checkNaNForResource)) ∧
    resourceRows (resources.map checkNaNForResource)
      = { nodeRow := resources.map (fun r => r.Name),
          cpuRow := resources.map (fun r =>
            fmtPercent (if r.CpuPercent.IsNaN then Float64.zero else r.CpuPercent)),
          memoryRow := resources.map (fun r =>
            fmtPercent (if r.MemoryPercent.IsNaN then Float64.zero else r.MemoryPercent)),
          storageRow := resources.map (fun r =>
            fmtPercent (if r.StoragePercent.IsNaN then Float64.zero else r.StoragePercent)),
          volumeRow := resources.map (fun r =>
            fmtPercent (if r.VolumePercent.IsNaN then Float64.zero else r.VolumePercent)),
          diffsRow := resources.map (fun r => "\n".intercalate r.Diffs) } := by
  have key : ∀ f : Float64,
      (if f.IsNaN then Float64.zero else f) = (if f.IsNaN then Float64.zero else f) ∧
      (if f.IsNaN then Float64.zero else f).IsNaN = false ∧
      (InUnit (if f.IsNaN then Float64.zero else f) ↔ (f.IsNaN = true ∨ InUnit f)) := by
    intro f
    refine ⟨rfl, sanitized_not_nan f, ?_⟩
    cases h : f.IsNaN
    · simp
    · simpa using Float64.zero_inUnit
  have hinf : ¬ InUnit infValue := by
    intro h
    have hfin := h.1
    revert hfin
    decide
  refine ⟨?_, ?_, ?_, ?_, ?_, ?_, ⟨rfl, Float64.zero_toRat, Float64.zero_inUnit⟩,
    ⟨by decide, by decide, hinf, ?_⟩, rfl, ?_⟩
  · rw [checkNaN_fields]; exact key _
  · rw [checkNaN_fields]; exact key _
  · rw [checkNaN_fields]; exact key _
  · rw [checkNaN_fields]; exact key _
  · rw [checkNaN_fields]
  · rw [checkNaN_fields]
  · rw [checkNaN_fields]
    have hn : infValue.IsNaN = false := by decide
    simp [hn]
  · rw [resourceRows_eq_map]
    simp only [List.map_map, checkNaN_fields, Function.comp_def]

/-! ## C4 -/

/-- C4, as stated, fails: for a node whose CPU usage is NaN and whose three
pools of `2^62` bytes sum to `3 * 2^62`, the CPU line shows `NaN`, not a
two-decimal number, and the Vol line shows `-4611686018427387904`, not the
total capacity of the pools. -/
theorem nodeResources_nan_overflow :
    overflowNode.CpuUsed.IsNaN = true ∧
    (overflowNode.InitVolume.map Prod.snd).sum = 13835058055282163712 ∧
    nodeResources overflowNode
      = "CPU: NaN/0\nMem: 0/0 bytes\nVol: 0 / -4611686018427387904 bytes\nStorage: 0 / 0 bytes"
      := by
  decide

/-- C4, amended: the resources cell is the four lines CPU, Mem, Vol, Storage
in that order, joined by newlines and containing no other newline. The CPU line
shows `CpuUsed` under `%.2f` over the number of entries of `InitCpu`: for a
finite value the nearest number with two decimals, otherwise `NaN`, `+Inf` or
`-Inf`. The Mem and Storage lines show used over initial bytes. The Vol line
shows `VolumeUsed` over the sum of the capacities of `InitVolume` reduced to the
`int64` range, which is the sum itself whenever it fits. For the node `n1` of
the scenario the cell and the status are the texts of the scenario. -/
theorem nodeResources_spec (node : Node) :
    nodeResources node =
      "CPU: " ++ fmtFloat2 node.CpuUsed ++ "/" ++ fmtInt (node.InitCpu.length : Int) ++ "\n"
        ++ ("Mem: " ++ fmtInt node.MemoryUsed ++ "/" ++ fmtInt node.InitMemory ++ " bytes")
        ++ "\n"
        ++ ("Vol: " ++ fmtInt node.VolumeUsed ++ " / "
              ++ fmtInt (wrapInt64 (node.InitVolume.map Prod.snd).sum) ++ " bytes")
        ++ "\n"
        ++ ("Storage: " ++ fmtInt node.StorageUsed ++ " / " ++ fmtInt node.InitStorage
              ++ " bytes") ∧
    (-9223372036854775808 ≤ (node.InitVolume.map Prod.snd).sum →
      (node.InitVolume.map Prod.snd).sum < 9223372036854775808 →
      wrapInt64 (node.InitVolume.map Prod.snd).sum = (node.InitVolume.map Prod.snd).sum) ∧
    (nodeResources node).data.count '\n' = 3 ∧
    (node.CpuUsed.IsFinite = true →
      ∃ n : Nat,
        fmtFloat2 node.CpuUsed
          = (if node.CpuUsed.sign then "-" else "") ++ Nat.repr (n / 100) ++ "."
              ++ twoDigits (n % 100) ∧
        |(n : ℚ) - |node.CpuUsed.toRat| * 100| ≤ 1 / 2) ∧
    (node.CpuUsed.IsFinite = false →
      fmtFloat2 node.CpuUsed
        = (if node.CpuUsed.IsNaN then "NaN"
            else if node.CpuUsed.sign then "-Inf" else "+Inf")) ∧
    scenarioNode.CpuUsed.toRat = 3 / 2 ∧
    nodeResources scenarioNode
      = "CPU: 1.50/4\nMem: 1024/4096 bytes\nVol: 0 / 0 bytes\nStorage: 0 / 1000 bytes" ∧
    nodeStatus scenarioNode = "UP\nbypass false\navailable true" ∧
    nodeRows scenarioNode false
      = [["n1"], ["10.0.0.1:2379"], ["UP\nbypass false\navailable true"],
          ["CPU: 1.50/4\nMem: 1024/4096 bytes\nVol: 0 / 0 bytes\nStorage: 0 / 1000 bytes"]] ∧
    nodeResources pooledNode
      = "CPU: 0.12/2\nMem: 512/2048 bytes\nVol: 30 / 350 bytes\nStorage: -7 / 9 bytes" := by
  have hcell : nodeResources node =
      "CPU: " ++ fmtFloat2 node.CpuUsed ++ "/" ++ fmtInt (node.InitCpu.length : Int) ++ "\n"
        ++ ("Mem: " ++ fmtInt node.MemoryUsed ++ "/" ++ fmtInt node.InitMemory ++ " bytes")
        ++ "\n"
        ++ ("Vol: " ++ fmtInt node.VolumeUsed ++ " / "
              ++ fmtInt (wrapInt64 (node.InitVolume.map Prod.snd).sum) ++ " bytes")
        ++ "\n"
        ++ ("Storage: " ++ fmtInt node.StorageUsed ++ " / " ++ fmtInt node.InitStorage
              ++ " bytes") := by
    rw [← totalVolumeCap_eq_wrap_sum]
    rfl
  refine ⟨hcell, fun hlo hhi => wrapInt64_of_range _ hlo hhi, ?_, ?_, ?_, ?_,
    by decide, by decide, by decide, by decide⟩
  · have h1 : ("CPU: " : String).data.count '\n' = 0 := by decide
    have h2 : ("/" : String).data.count '\n' = 0 := by decide
    have h3 : ("\n" : String).data.count '\n' = 1 := by decide
    have h4 : ("Mem: " : String).data.count '\n' = 0 := by decide
    have h5 : (" bytes" : String).data.count '\n' = 0 := by decide
    have h6 : ("Vol: " : String).data.count '\n' = 0 := by decide
    have h7 : (" / " : String).data.count '\n' = 0 := by decide
    have h8 : ("Storage: " : String).data.count '\n' = 0 := by decide
    rw [hcell]
    simp only [String.data_append, List.count_append, h1, h2, h3, h4, h5, h6, h7, h8,
      fmtInt_count_newline, fmtFloat2_count_newline]
  · intro hfin
    have hne : ¬ node.CpuUsed.expo.val = 2047 := by
      simpa [Float64.IsFinite] using hfin
    refine ⟨Float64.roundScaled ((Float64.decode node.CpuUsed).1 * 100)
      (Float64.decode node.CpuUsed).2, ?_, ?_⟩
    · unfold fmtFloat2
      rw [if_neg hne]
    · rw [abs_toRat_finite _ hfin]
      have h := roundScaled_near ((Float64.decode node.CpuUsed).1 * 100)
        (Float64.decode node.CpuUsed).2
      have hcast : (((Float64.decode node.CpuUsed).1 * 100 : ℕ) : ℚ)
          * (2 : ℚ) ^ (Float64.decode node.CpuUsed).2
          = ((Float64.decode node.CpuUsed).1 : ℚ) * (2 : ℚ) ^ (Float64.decode node.CpuUsed).2
              * 100 := by
        push_cast
        ring
      rw [hcast] at h
      exact h
  · intro hinf
    have he : node.CpuUsed.expo.val = 2047 := by
      simpa [Float64.IsFinite] using hinf
    unfold fmtFloat2
    rw [if_pos he]
    by_cases hz : node.CpuUsed.frac.val = 0 <;> simp [Float64.IsNaN, he, hz]
  · have hd : Float64.decode scenarioNode.CpuUsed = (6755399441055744, -52) := by decide
    have he : scenarioNode.CpuUsed.expo.val = 1023 := rfl
    have hs : scenarioNode.CpuUsed.sign = false := rfl
    unfold Float64.toRat
    rw [hd, he, hs]
    norm_num

/-! ## C5 -/

/-- C5, as stated, fails: with two pools of `2^62` bytes each the capacities
sum to `2^63`, while the total computed by `describeNodes` is `-2^63`, and that
is the number the Vol line shows. -/
theorem totalVolumeCap_overflow :
    totalVolumeCap [("pool0", 4611686018427387904), ("pool1", 4611686018427387904)]
      = -9223372036854775808 ∧
    ([("pool0", (4611686018427387904 : Int)), ("pool1", 4611686018427387904)].map Prod.snd).sum
      = 9223372036854775808 ∧
    totalVolumeCap [("pool0", 4611686018427387904), ("pool1", 4611686018427387904)]
      ≠ ([("pool0", (4611686018427387904 : Int)), ("pool1", 4611686018427387904)].map
          Prod.snd).sum ∧
    fmtInt (totalVolumeCap [("pool0", 4611686018427387904), ("pool1", 4611686018427387904)])
      = "-9223372036854775808" := by
  decide

/-- C5, amended: the total shown on the Vol line is the sum of the per-pool
capacities of `InitVolume` reduced to the `int64` range, hence the sum itself
whenever the sum fits in an `int64`; it is the same for every iteration order
over the pools, and it is `0` when `InitVolume` is empty. -/
theorem totalVolumeCap_spec (node : Node) :
    nodeResourceLines node
      = [ "CPU: " ++ fmtFloat2 node.CpuUsed ++ "/" ++ fmtInt (node.InitCpu.length : Int),
          "Mem: " ++ fmtInt node.MemoryUsed ++ "/" ++ fmtInt node.InitMemory ++ " bytes",
          "Vol: " ++ fmtInt node.VolumeUsed ++ " / "
            ++ fmtInt (wrapInt64 (node.InitVolume.map Prod.snd).sum) ++ " bytes",
          "Storage: " ++ fmtInt node.StorageUsed ++ " / " ++ fmtInt node.InitStorage
            ++ " bytes" ] ∧
    totalVolumeCap node.InitVolume = wrapInt64 (node.InitVolume.map Prod.snd).sum ∧
    (-9223372036854775808 ≤ (node.InitVolume.map Prod.snd).sum →
      (node.InitVolume.map Prod.snd).sum < 9223372036854775808 →
      totalVolumeCap node.InitVolume = (node.InitVolume.map Prod.snd).sum) ∧
    (∀ order : List (String × Int), order.Perm node.InitVolume →
      totalVolumeCap order = totalVolumeCap node.InitVolume) ∧
    totalVolumeCap [] = 0 := by
  refine ⟨?_, totalVolumeCap_eq_wrap_sum _, ?_, ?_, rfl⟩
  · simp [nodeResourceLines, totalVolumeCap_eq_wrap_sum]
  · intro hlo hhi
    rw [totalVolumeCap_eq_wrap_sum, wrapInt64_of_range _ hlo hhi]
  · intro order hperm
    rw [totalVolumeCap_eq_wrap_sum, totalVolumeCap_eq_wrap_sum,
      (hperm.map Prod.snd).sum_eq]

/-! ## C6 -/

/-- C6: the display fields built for a node are `Name`, `Endpoint`, status,
resources, followed by `Info` when `showInfo` is true and by nothing otherwise;
they are as many as the entries of the header appended, in the header's order;
without `showInfo` the fields do not depend on `Info`; these fields are what
`describeNodes` passes to `toTableRows` after that header. -/
theorem nodeRows_spec (toTableRows : List (List String) → List (List String))
    (node : Node) (nodes : List Node) (showInfo stream : Bool) (info : String) :
    nodeRows node false
      = [[node.Name], [node.Endpoint], [nodeStatus node], [nodeResources node]] ∧
    nodeHeader false = ["Name", "Endpoint", "Status", "Resources"] ∧
    nodeRows node true
      = [[node.Name], [node.Endpoint], [nodeStatus node], [nodeResources node], [node.Info]] ∧
    nodeHeader true = ["Name", "Endpoint", "Status", "Resources", "Info"] ∧
    (nodeRows node showInfo).length = (nodeHeader showInfo).length ∧
    nodeRows { node with Info := info } false = nodeRows node false ∧
    describeNodes toTableRows nodes showInfo stream =
      [TableCall.SetOutputMirror, TableCall.AppendHeader (nodeHeader showInfo)]
        ++ nodes.flatMap (fun node =>
            [TableCall.AppendRows (toTableRows (nodeRows node showInfo)),
              TableCall.AppendSeparator])
        ++ [TableCall.SetStyleLight, TableCall.Render] := by
  refine ⟨rfl, rfl, rfl, rfl, ?_, rfl, describeNodes_calls _ _ _ _⟩
  cases showInfo <;> rfl

/-! ## C7 -/

set_option exponentiation.threshold 2000 in
set_option maxRecDepth 4000 in
/-- C7: on an empty closed node sequence `describeNodes` makes no `AppendRows`
and no `AppendSeparator` call, and the writer holds the header only. On an empty
resource list `describeNodeResources` appends the header, then calls
`AppendRows` on `toTableRows` of six empty per-field sequences, which are no
rows, and `AppendSeparator`, which marks nothing on a grid without rows: the
writer holds the header only, no data row and no separator. Both are total.
With one record the writer holds one data row and one separator. -/
theorem describe_empty_spec (toTableRows : List (List String) → List (List String))
    (showInfo stream : Bool) :
    describeNodes toTableRows [] showInfo stream
      = [TableCall.SetOutputMirror, TableCall.AppendHeader (nodeHeader showInfo),
          TableCall.SetStyleLight, TableCall.Render] ∧
    describeNodeResources toTableRows []
      = [TableCall.SetOutputMirror,
          TableCall.AppendHeader ["Name", "Cpu", "Memory", "Storage", "Volume", "Diffs"],
          TableCall.AppendRows (toTableRows [[], [], [], [], [], []]),
          TableCall.AppendSeparator, TableCall.SetStyleLight, TableCall.Render] ∧
    Table.run (describeNodes toTableRows [] showInfo stream)
      = { header := [nodeHeader showInfo], rows := [], separators := [] } ∧
    toTableRowsModel [[], [], [], [], [], []] = [] ∧
    Table.run (describeNodeResources toTableRowsModel [])
      = { header := [["Name", "Cpu", "Memory", "Storage", "Volume", "Diffs"]],
          rows := [], separators := [] } ∧
    Table.run (describeNodes toTableRowsModel [scenarioNode] false false)
      = { header := [["Name", "Endpoint", "Status", "Resources"]],
          rows := [["n1", "10.0.0.1:2379", "UP\nbypass false\navailable true",
            "CPU: 1.50/4\nMem: 1024/4096 bytes\nVol: 0 / 0 bytes\nStorage: 0 / 1000 bytes"]],
          separators := [0] } ∧
    Table.run (describeNodeResources toTableRowsModel [overResource])
      = { header := [["Name", "Cpu", "Memory", "Storage", "Volume", "Diffs"]],
          rows := [["n2", "200.00%", "50.00%", "0.00%", "50.00%", ""]],
          separators := [0] } := by
  refine ⟨rfl, rfl, ?_, by decide, by decide, by decide, by decide⟩
  cases showInfo <;> rfl

/-! ## C8 -/

/-- C8, as stated, fails for `describeNodeResources`: for two resources it
appends one separator, not two. -/
theorem describeNodeResources_two_one_separator :
    [nanResource, overResource].length = 2 ∧
    (describeNodeResources id [nanResource, overResource]).count TableCall.AppendSeparator
      = 1 := by
  refine ⟨rfl, ?_⟩
  simp [describeNodeResources, List.count_cons]

/-- C8, amended: `describeNodes` appends, in arrival order, each node's row
group immediately followed by one separator, `n` separators in all;
`describeNodeResources` builds six per-field sequences of length `n` whose
`i`-th entries come from the `i`-th resource, hands them over in one
`AppendRows` call and appends one separator after it, whatever `n` is. -/
theorem describe_order_spec (toTableRows : List (List String) → List (List String))
    (nodes : List Node) (showInfo stream : Bool) (resources : List NodeResource) :
    describeNodes toTableRows nodes showInfo stream =
      [TableCall.SetOutputMirror, TableCall.AppendHeader (nodeHeader showInfo)]
        ++ nodes.flatMap (fun node =>
            [TableCall.AppendRows (toTableRows (nodeRows node showInfo)),
              TableCall.AppendSeparator])
        ++ [TableCall.SetStyleLight, TableCall.Render] ∧
    (describeNodes toTableRows nodes showInfo stream).count TableCall.AppendSeparator
      = nodes.length ∧
    describeNodeResources toTableRows resources
      = [TableCall.SetOutputMirror,
          TableCall.AppendHeader ["Name", "Cpu", "Memory", "Storage", "Volume", "Diffs"],
          TableCall.AppendRows (toTableRows
            [resources.map (fun r => r.Name),
              resources.map (fun r => fmtPercent r.CpuPercent),
              resources.map (fun r => fmtPercent r.MemoryPercent),
              resources.map (fun r => fmtPercent r.StoragePercent),
              resources.map (fun r => fmtPercent r.VolumePercent),
              resources.map (fun r => "\n".intercalate r.Diffs)]),
          TableCall.AppendSeparator, TableCall.SetStyleLight, TableCall.Render] ∧
    (describeNodeResources toTableRows resources).count TableCall.AppendSeparator = 1 ∧
    (∀ row ∈ (resourceRows resources).rows, row.length = resources.length) := by
  refine ⟨describeNodes_calls _ _ _ _, ?_, ?_, ?_, ?_⟩
  · rw [describeNodes_calls, List.count_append, List.count_append, count_separator_rows]
    simp [List.count_cons]
  · simp [describeNodeResources, resourceRows_eq_map, ResourceRows.rows]
  · simp [describeNodeResources, List.count_cons]
  · intro row hrow
    rw [resourceRows_eq_map] at hrow
    simp only [ResourceRows.rows, List.mem_cons, List.mem_singleton, List.not_mem_nil,
      or_false] at hrow
    rcases hrow with h | h | h | h | h | h <;> simp [h]

end Describe
